import Mathlib

/-!
Verification of `precheck.py`, a project-convention validator.

The file embeds the Python source shallowly: the relevant fragment of the
Python abstract syntax (expressions, statements, argument records) becomes
Lean inductive types, each check function of `precheck.py` becomes a Lean
function over those types returning `Except String Unit` (where the Python
original prints an error and terminates the process via `fail`/`sys.exit(1)`,
the embedding returns `.error message`), and the filesystem inputs each check
reads become explicit arguments.
-/

/-- A formal parameter record, mirroring `ast.arg` (only the name field is
read by the validator). -/
structure Arg where
  arg : String
deriving Repr, DecidableEq

/-- The argument partition of a function, mirroring `ast.arguments`:
positional-only, positional-or-keyword, variadic positional, keyword-only,
variadic keyword.  Defaults are never read by the validator and are omitted. -/
structure Arguments where
  posonlyargs : List Arg
  args : List Arg
  vararg : Option Arg
  kwonlyargs : List Arg
  kwarg : Option Arg
deriving Repr, DecidableEq

/-- The fragment of Python expressions the validator inspects:
`ast.Name`, `ast.Attribute`, `ast.Call` (positional arguments only — the
validator never reads keyword arguments of a call), and anything else. -/
inductive PExpr where
  | nameE (id : String)
  | attrE (value : PExpr) (attr : String)
  | callE (func : PExpr) (args : List PExpr)
  | otherE
deriving Repr

/-- The fragment of Python statements the validator inspects.
`funcDef` covers both `ast.FunctionDef` and `ast.AsyncFunctionDef`,
distinguished by the `isAsync` flag (the Python code distinguishes them by
`isinstance(_, ast.AsyncFunctionDef)`).  `importS` carries the dotted module
path of each alias of an `ast.Import`; `importFrom` carries `module` and
`level` of an `ast.ImportFrom`.  `passS` stands for every other statement. -/
inductive Stmt where
  | classDef (name : String) (body : List Stmt)
  | funcDef (name : String) (isAsync : Bool) (decoratorList : List PExpr)
      (args : Arguments) (body : List Stmt)
  | exprStmt (value : PExpr)
  | importS (names : List String)
  | importFrom (moduleName : Option String) (level : Nat)
  | passS
deriving Repr

/-!
Models of the Python string primitives the validator uses, written over the
character list so that the kernel can evaluate them on concrete inputs
(several of the corresponding `String` library functions are compiled
through well-founded recursion and do not reduce definitionally).
-/

/-- Does the first list start with the second one? -/
def startsWithChars : List Char → List Char → Bool
  | _, [] => true
  | [], _ :: _ => false
  | c :: cs, d :: ds => c == d && startsWithChars cs ds

/-- Python `s.startswith(pre)`. -/
def pyStartsWith (s pre : String) : Bool :=
  startsWithChars s.toList pre.toList

/-- Python `s.endswith(suf)`. -/
def pyEndsWith (s suf : String) : Bool :=
  startsWithChars s.toList.reverse suf.toList.reverse

/-- Occurrence of the second list inside the first, at any position. -/
def hasSubChars : List Char → List Char → Bool
  | [], needle => needle.isEmpty
  | c :: rest, needle => startsWithChars (c :: rest) needle || hasSubChars rest needle

/-- Python substring test `needle in hay`. -/
def containsSub (hay needle : String) : Bool :=
  hasSubChars hay.toList needle.toList

/-- Python `s.strip()` for whitespace. -/
def pyStrip (s : String) : String :=
  String.mk (((s.toList.dropWhile Char.isWhitespace).reverse.dropWhile
    Char.isWhitespace).reverse)

/-- Python `s.lower()` (ASCII letters; the validator compares lowercase
keyword lists against lowered text). -/
def pyLower (s : String) : String :=
  String.mk (s.toList.map Char.toLower)

/-- Characters of each line, splitting at every newline character. -/
def splitLinesChars : List Char → List (List Char)
  | [] => [[]]
  | c :: rest =>
    if c = '\n' then [] :: splitLinesChars rest
    else
      match splitLinesChars rest with
      | [] => [[c]]
      | l :: ls => (c :: l) :: ls

/-- Python `s.splitlines()`, modelled as splitting on the newline character. -/
def pySplitLines (s : String) : List String :=
  (splitLinesChars s.toList).map String.mk

/-- Error messages of `fail(...)` calls in `check_run_method`. -/
def runAbsentMsg (file clsName : String) : String :=
  file ++ ": класс " ++ clsName ++ " — отсутствует метод run()"

def runAsyncMsg (file clsName : String) : String :=
  file ++ ": метод run() в " ++ clsName ++ " должен быть async"

def runClassmethodMsg (file clsName : String) : String :=
  file ++ ": метод run() в " ++ clsName ++ " должен быть classmethod"

def runKwonlyMsg (file clsName : String) : String :=
  file ++ ": метод run() в " ++ clsName ++
    " должен принимать total_usage как keyword-only (*, total_usage=...)"

/-- The data `check_run_method` reads off the `run` method it found. -/
structure FuncInfo where
  isAsync : Bool
  decoratorList : List PExpr
  args : Arguments
deriving Repr

/-- Matches the loop filter of `check_run_method`:
`isinstance(item, (ast.FunctionDef, ast.AsyncFunctionDef)) and item.name == 'run'`. -/
def asRunMethod : Stmt → Option FuncInfo
  | Stmt.funcDef n ia dl ar _ => if n == "run" then some ⟨ia, dl, ar⟩ else none
  | _ => none

/-- The search loop of `check_run_method`: first member of the class body that
is a function or method named `run`; the loop breaks at the first hit. -/
def findRunMethod (body : List Stmt) : Option FuncInfo :=
  body.findSome? asRunMethod

/-- The decorator test of `check_run_method`:
`(isinstance(d, ast.Name) and d.id == 'classmethod') or
 (isinstance(d, ast.Attribute) and d.attr == 'classmethod')`. -/
def isClassmethodDeco : PExpr → Bool
  | PExpr.nameE id => id == "classmethod"
  | PExpr.attrE _ a => a == "classmethod"
  | _ => false

/-- `check_run_method(class_node, file)`: find the first `run` member, then
require (in this order) that it is asynchronous, that some decorator passes
`isClassmethodDeco`, and that `total_usage` occurs among the keyword-only
argument names. -/
def check_run_method (clsName : String) (clsBody : List Stmt) (file : String) :
    Except String Unit :=
  match findRunMethod clsBody with
  | none => Except.error (runAbsentMsg file clsName)
  | some m =>
    if !m.isAsync then
      Except.error (runAsyncMsg file clsName)
    else if !(m.decoratorList.any isClassmethodDeco) then
      Except.error (runClassmethodMsg file clsName)
    else if !(m.args.kwonlyargs.any (fun a => a.arg == "total_usage")) then
      Except.error (runKwonlyMsg file clsName)
    else
      Except.ok ()

/-- Error messages of `fail(...)` calls in `check_flow_file`. -/
def flowMissingMsg (file : String) : String :=
  file ++ ": отсутствуют классы, имя которых заканчивается на 'Flow'"

def flowMultipleMsg (file : String) (n : Nat) : String :=
  file ++ ": в файле должно быть только один Flow-класс, найдено " ++ toString n

/-- The comprehension `[node for node in tree.body if isinstance(node, ast.ClassDef)]`:
only top-level class declarations of the module body. -/
def topLevelClasses (body : List Stmt) : List (String × List Stmt) :=
  body.filterMap fun s =>
    match s with
    | Stmt.classDef n b => some (n, b)
    | _ => none

/-- The comprehension `[cls for cls in classes if cls.name.endswith('Flow')]`. -/
def flowClassesOf (body : List Stmt) : List (String × List Stmt) :=
  (topLevelClasses body).filter fun c => pyEndsWith c.1 "Flow"

/-- `check_flow_file(file)`: zero `Flow`-suffixed top-level classes fails,
more than one fails reporting the count, exactly one is passed on to
`check_run_method`. -/
def check_flow_file (file : String) (body : List Stmt) : Except String Unit :=
  match flowClassesOf body with
  | [] => Except.error (flowMissingMsg file)
  | [c] => check_run_method c.1 c.2 file
  | cs => Except.error (flowMultipleMsg file cs.length)

/-- `check_flow_run_signature()`: run `check_flow_file` over every flow file
(the Python loop stops at the first failure because `fail` exits the
process). -/
def check_flow_run_signature : List (String × List Stmt) → Except String Unit
  | [] => Except.ok ()
  | (fn, tr) :: rest =>
    match check_flow_file fn tr with
    | Except.error e => Except.error e
    | Except.ok () => check_flow_run_signature rest

/-- Error messages of `check_demo_main`. -/
def demoMissingFileMsg (p : String) : String :=
  "Не найден demonstration/main.py (" ++ p ++ ")"

def mainSyncMsg (p : String) : String :=
  p ++ ": функция main() должна быть async"

def mainMissingMsg (p : String) : String :=
  p ++ ": отсутствует функция async def main()"

def mainArgsMsg (p : String) : String :=
  p ++ ": функция main() не должна принимать аргументы"

def mainNotCalledMsg (p : String) : String :=
  p ++ ": функция main() должна вызываться в конце файла (asyncio.run(main()))"

/-- The first search loop of `check_demo_main`:
`isinstance(node, ast.AsyncFunctionDef) and node.name == 'main'`. -/
def asAsyncMain : Stmt → Option Arguments
  | Stmt.funcDef n ia _ ar _ => if ia && n == "main" then some ar else none
  | _ => none

/-- The fallback loop of `check_demo_main`: does a synchronous top-level
function named `main` exist (`isinstance(node, ast.FunctionDef)`)? -/
def hasSyncMain (body : List Stmt) : Bool :=
  body.any fun s =>
    match s with
    | Stmt.funcDef n ia _ _ _ => !ia && n == "main"
    | _ => false

/-- The argument test of `check_demo_main`:
`main_func.args.args or main_func.args.kwonlyargs or main_func.args.vararg
 or main_func.args.kwarg`.  The source never reads `posonlyargs`. -/
def mainArgsViolation (a : Arguments) : Bool :=
  !a.args.isEmpty || !a.kwonlyargs.isEmpty || a.vararg.isSome || a.kwarg.isSome

/-- The per-statement acceptance test of the invocation loop of
`check_demo_main`: a call `main(...)`, or a call `asyncio.run(...)` whose
argument list starts with a call whose callee is the name `main`. -/
def qualifiesMainCall : PExpr → Bool
  | PExpr.callE (PExpr.nameE i) _ => i == "main"
  | PExpr.callE (PExpr.attrE (PExpr.nameE b) a) cargs =>
    a == "run" && b == "asyncio" &&
      (match cargs with
       | PExpr.callE (PExpr.nameE i2) _ :: _ => i2 == "main"
       | _ => false)
  | _ => false

/-- One iteration of the invocation loop of `check_demo_main`: non-expression
statements and non-call values are skipped (`continue`). -/
def stmtCallsMain : Stmt → Bool
  | Stmt.exprStmt v => qualifiesMainCall v
  | _ => false

/-- The invocation loop of `check_demo_main`: scan `tree.body[::-1]` for an
expression statement whose value is an accepted call. -/
def checksMainInvoked (body : List Stmt) : Bool :=
  body.reverse.any stmtCallsMain

/-- `check_demo_main()`: the file must exist, an asynchronous top-level
`main` must exist (a synchronous one gives a dedicated message), its
argument record must pass `mainArgsViolation`, and the module must invoke it. -/
def check_demo_main (mainFileExists : Bool) (mainPath : String)
    (body : List Stmt) : Except String Unit :=
  if !mainFileExists then Except.error (demoMissingFileMsg mainPath)
  else
    match body.findSome? asAsyncMain with
    | none =>
      if hasSyncMain body then Except.error (mainSyncMsg mainPath)
      else Except.error (mainMissingMsg mainPath)
    | some a =>
      if mainArgsViolation a then Except.error (mainArgsMsg mainPath)
      else if !(checksMainInvoked body) then Except.error (mainNotCalledMsg mainPath)
      else Except.ok ()

/-- An import node as `ast.walk` hands it to `check_app_imports`: either the
alias paths of an `ast.Import`, or the `module`/`level` pair of an
`ast.ImportFrom`. -/
inductive ImpNode where
  | imp (names : List String)
  | fromImp (moduleName : Option String) (level : Nat)
deriving Repr, DecidableEq

mutual

/-- All import nodes inside one statement, mirroring that `ast.walk`
reaches import statements nested in class and function bodies. -/
def stmtWalkImports : Stmt → List ImpNode
  | Stmt.importS ns => [ImpNode.imp ns]
  | Stmt.importFrom m l => [ImpNode.fromImp m l]
  | Stmt.classDef _ b => bodyWalkImports b
  | Stmt.funcDef _ _ _ _ b => bodyWalkImports b
  | Stmt.exprStmt _ => []
  | Stmt.passS => []

/-- All import nodes inside a statement list, in order. -/
def bodyWalkImports : List Stmt → List ImpNode
  | [] => []
  | s :: r => stmtWalkImports s ++ bodyWalkImports r

end

/-- `allowed_full_import = "eksmo_src.eksmo_types"`. -/
def allowed_full_import : String := "eksmo_src.eksmo_types"

/-- `full_name.split(".")[0]`: the root segment of a dotted module path, the
characters before the first dot (the whole name when it has no dot). -/
def topModule (full : String) : String :=
  String.mk (full.toList.takeWhile fun c => !(c == '.'))

def importDirectMsg (pyFile full : String) : String :=
  pyFile ++ ": запрещён импорт локального модуля '" ++ full ++
    "'. Модуль app должен быть самодостаточным."

def importFromMsg (pyFile full : String) : String :=
  pyFile ++ ": запрещён импорт локального модуля '" ++ full ++
    "' через 'from'. Модуль app должен быть самодостаточным."

/-- The `ast.Import` branch of `check_app_imports`, for one alias: exempt the
exact allow-listed path, then flag a root that is a local module other than
`app`. -/
def directAliasViolation (localModules : List String) (pyFile full : String) :
    Option String :=
  if full == allowed_full_import then none
  else if localModules.contains (topModule full) && topModule full != "app" then
    some (importDirectMsg pyFile full)
  else none

/-- The `ast.ImportFrom` branch of `check_app_imports`: relative imports
(`level != 0`) and a missing module path are skipped, then the same logic as
for direct imports, applied to the `module` path. -/
def fromImportViolation (localModules : List String) (pyFile : String)
    (moduleName : Option String) (level : Nat) : Option String :=
  if level != 0 then none
  else
    match moduleName with
    | none => none
    | some full =>
      if full == allowed_full_import then none
      else if localModules.contains (topModule full) && topModule full != "app" then
        some (importFromMsg pyFile full)
      else none

/-- First violation among the aliases of one `ast.Import` (the Python loop
`for alias in node.names` terminates the process at the first one). -/
def firstAliasViolation (localModules : List String) (pyFile : String) :
    List String → Option String
  | [] => none
  | full :: rest =>
    match directAliasViolation localModules pyFile full with
    | some m => some m
    | none => firstAliasViolation localModules pyFile rest

/-- Violation produced by one walked import node, if any. -/
def impNodeViolation (localModules : List String) (pyFile : String) :
    ImpNode → Option String
  | ImpNode.imp ns => firstAliasViolation localModules pyFile ns
  | ImpNode.fromImp m l => fromImportViolation localModules pyFile m l

/-- First violation among the walked import nodes of one file. -/
def firstImportViolation (localModules : List String) (pyFile : String) :
    List ImpNode → Option String
  | [] => none
  | n :: rest =>
    match impNodeViolation localModules pyFile n with
    | some m => some m
    | none => firstImportViolation localModules pyFile rest

/-- The file loop of `check_app_imports` over `app_dir.rglob("*.py")`:
each file is parsed and walked; a violation calls `fail`, which terminates
the process, so the embedding stops at the first violating file. -/
def check_app_imports (localModules : List String) :
    List (String × List Stmt) → Except String Unit
  | [] => Except.ok ()
  | (fn, tr) :: rest =>
    match firstImportViolation localModules fn (bodyWalkImports tr) with
    | some m => Except.error m
    | none => check_app_imports localModules rest

/-- One entry of a directory listing: a subdirectory or a plain file
(`name` keeps the extension). -/
inductive DirEntry where
  | dirE (name : String)
  | fileE (name : String)
deriving Repr, DecidableEq

def entryName : DirEntry → String
  | DirEntry.dirE n => n
  | DirEntry.fileE n => n

/-- Index of the last `.` in a file name, if any (0-based, over characters). -/
def lastDotIdxAux : List Char → Nat → Option Nat → Option Nat
  | [], _, acc => acc
  | c :: rest, i, acc => lastDotIdxAux rest (i + 1) (if c = '.' then some i else acc)

def lastDotIdx (name : String) : Option Nat :=
  lastDotIdxAux name.toList 0 none

/-- `pathlib.PurePath.suffix`: the extension from the last dot, empty when
the last dot is the first or the last character. -/
def pySuffix (name : String) : String :=
  match lastDotIdx name with
  | some i =>
    if 0 < i ∧ i < name.length - 1 then String.mk (name.toList.drop i) else ""
  | none => ""

/-- `pathlib.PurePath.stem`: the name with its `pySuffix` removed. -/
def pyStem (name : String) : String :=
  match lastDotIdx name with
  | some i =>
    if 0 < i ∧ i < name.length - 1 then String.mk (name.toList.take i) else name
  | none => name

/-- The `local_modules` computation of `check_app_imports`: over the project
root's listing, skip the entry named `app`, collect every directory name and
the stem of every `.py` file (the Python original accumulates these into a
set; membership is what the import check reads). -/
def localModulesOf : List DirEntry → List String
  | [] => []
  | item :: rest =>
    if entryName item = "app" then localModulesOf rest
    else
      match item with
      | DirEntry.dirE n => n :: localModulesOf rest
      | DirEntry.fileE n =>
        if pySuffix n = ".py" then pyStem n :: localModulesOf rest
        else localModulesOf rest

/-- The inputs the eight checks read from the filesystem, presented in the
form each check consumes (paths are relative to `PROJECT_ROOT`):
existing directories and files, the project root's and `app/`'s listings,
the parsed `.py` files under `app/`, the plain-file names in the flows
directory, the parsed `*_flow.py` files, the parsed `demonstration/main.py`,
the text of `README.md`, and every `.py` file of the project as its path
components with its line count. -/
structure Project where
  dirs : List String
  files : List String
  rootListing : List DirEntry
  appDirListing : List DirEntry
  appPyFiles : List (String × List Stmt)
  flowsDirFiles : List String
  flowFiles : List (String × List Stmt)
  demoMainTree : List Stmt
  readmeText : String
  allPyFiles : List (List String × Nat)

/-- The insertion-ordered keys of `required_structure` in
`check_project_structure` (description and path coincide up to the
`PROJECT_ROOT` prefix). -/
def requiredStructure : List String :=
  ["app", "app/outsource", "app/outsource/flows", "app/consts.py",
   "demonstration", "demonstration/main.py", "eksmo_src",
   ".pre-commit-config.yaml", "pyproject.toml", "README.md"]

/-- The kind dispatch of `check_project_structure`: descriptions ending in
`.py`, `.yaml`, `.toml` or `.md` are checked as files, the rest as
directories. -/
def isFileDescription (d : String) : Bool :=
  pyEndsWith d ".py" || pyEndsWith d ".yaml" || pyEndsWith d ".toml" ||
    pyEndsWith d ".md"

def structMissingFileMsg (d p : String) : String :=
  "Отсутствует файл: " ++ d ++ " (" ++ p ++ ")"

def structMissingDirMsg (d p : String) : String :=
  "Отсутствует директория: " ++ d ++ " (" ++ p ++ ")"

/-- The loop of `check_project_structure` over the required entries. -/
def checkRequired (p : Project) : List String → Except String Unit
  | [] => Except.ok ()
  | d :: rest =>
    if isFileDescription d then
      if !(p.files.contains d) then Except.error (structMissingFileMsg d d)
      else checkRequired p rest
    else
      if !(p.dirs.contains d) then Except.error (structMissingDirMsg d d)
      else checkRequired p rest

/-- `check_project_structure()`. -/
def check_project_structure (p : Project) : Except String Unit :=
  checkRequired p requiredStructure

def appDirMissingMsg (p : String) : String :=
  "Отсутствует директория app/ (" ++ p ++ ")"

def appDirInvalidDirMsg (n : String) : String :=
  "Недопустимая директория в app/: " ++ n ++ " (разрешено только outsource/)"

def appDirInvalidFileMsg (n : String) : String :=
  "Недопустимый файл в app/: " ++ n ++ " (разрешено только consts.py и __init__.py)"

/-- The item loop of `check_app_directory_contents`: a directory must be
`outsource`, a file must be `consts.py` or `__init__.py`. -/
def checkAppItems : List DirEntry → Except String Unit
  | [] => Except.ok ()
  | DirEntry.dirE n :: rest =>
    if !(["outsource"].contains n) then Except.error (appDirInvalidDirMsg n)
    else checkAppItems rest
  | DirEntry.fileE n :: rest =>
    if !(["consts.py", "__init__.py"].contains n) then
      Except.error (appDirInvalidFileMsg n)
    else checkAppItems rest

/-- `check_app_directory_contents()`. -/
def check_app_directory_contents (p : Project) : Except String Unit :=
  if !(p.dirs.contains "app") then Except.error (appDirMissingMsg "app")
  else checkAppItems p.appDirListing

def flowsDirMissingMsg (p : String) : String :=
  "Не найдена директория flows: " ++ p

def flowNameMsg (n : String) : String :=
  "Неверное имя файла flow: " ++ n ++ " (ожидается *_flow.py)"

/-- The file loop of `check_structure`: `__init__.py` is allowed, everything
else must end in `_flow.py`. -/
def checkFlowNames : List String → Except String Unit
  | [] => Except.ok ()
  | n :: rest =>
    if ["__init__.py"].contains n then checkFlowNames rest
    else if !(pyEndsWith n "_flow.py") then Except.error (flowNameMsg n)
    else checkFlowNames rest

/-- `check_structure()`: the flows directory must exist; its plain files are
then checked by name. -/
def check_structure (p : Project) : Except String Unit :=
  if !(p.dirs.contains "app/outsource/flows") then
    Except.error (flowsDirMissingMsg "app/outsource/flows")
  else checkFlowNames p.flowsDirFiles

def readmeMissingMsg : String := "Отсутствует README.md (README.md)"

def readmeEmptyMsg : String := "README.md пустой"

def readmeHeaderMsg : String :=
  "README.md должен начинаться с заголовка (# Заголовок)"

def readmeDescriptionMsg : String :=
  "README.md должен содержать описание проекта сразу после заголовка"

def readmeInstallMsg : String :=
  "README.md должен содержать секцию установки (например: \"Установка\", \"Installation\")"

def readmeRunMsg : String :=
  "README.md должен содержать секцию запуска/демонстрации (например: \"Запуск\", \"Демонстрация\")"

def installKeywords : List String :=
  ["установка", "installation", "setup", "инсталляция", "install"]

def runSectionKeywords : List String :=
  ["запуск", "run", "usage", "использование", "демонстрация"]

/-- `check_readme()`. -/
def check_readme (p : Project) : Except String Unit :=
  if !(p.files.contains "README.md") then Except.error readmeMissingMsg
  else
    let content := pyStrip p.readmeText
    if content == "" then Except.error readmeEmptyMsg
    else if !(pyStartsWith content "#") then Except.error readmeHeaderMsg
    else
      let firstLines := (pySplitLines content).take 15
      if !(firstLines.any fun line =>
            !(pyStartsWith line "#") && (pyStrip line).length > 10) then
        Except.error readmeDescriptionMsg
      else if !(installKeywords.any fun k =>
            containsSub (pyLower content) (pyLower k)) then
        Except.error readmeInstallMsg
      else if !(runSectionKeywords.any fun k =>
            containsSub (pyLower content) (pyLower k)) then
        Except.error readmeRunMsg
      else Except.ok ()

def fileLengthMsg (path : String) (n maxL : Nat) : String :=
  path ++ ": слишком большой файл (" ++ toString n ++ " строк), лимит = " ++
    toString maxL

/-- `check_file_length(file, max_lines)`. -/
def check_file_length (pathParts : List String) (lineCount maxLines : Nat) :
    Except String Unit :=
  if lineCount > maxLines then
    Except.error (fileLengthMsg (String.intercalate "/" pathParts) lineCount maxLines)
  else Except.ok ()

/-- The exemption of `check_all_python_files_length`:
`"venv" in path.parts or "env" in path.parts`. -/
def isEnvExempt (parts : List String) : Bool :=
  parts.contains "venv" || parts.contains "env"

/-- `check_all_python_files_length(max_lines)` over `PROJECT_ROOT.rglob("*.py")`. -/
def check_all_python_files_length (maxLines : Nat) :
    List (List String × Nat) → Except String Unit
  | [] => Except.ok ()
  | (parts, n) :: rest =>
    if isEnvExempt parts then check_all_python_files_length maxLines rest
    else
      match check_file_length parts n maxLines with
      | Except.error e => Except.error e
      | Except.ok () => check_all_python_files_length maxLines rest

/-- `check_app_imports()` with its `local_modules` computation inlined from
the project root's listing, as in the source. -/
def check_app_imports_proj (p : Project) : Except String Unit :=
  check_app_imports (localModulesOf p.rootListing) p.appPyFiles

/-- `check_demo_main()` over the project model. -/
def check_demo_main_proj (p : Project) : Except String Unit :=
  check_demo_main (p.files.contains "demonstration/main.py")
    "demonstration/main.py" p.demoMainTree

/-- The eight check results in the exact call order of `main()`. -/
def checkResults (p : Project) : List (Except String Unit) :=
  [check_project_structure p,
   check_app_directory_contents p,
   check_app_imports_proj p,
   check_structure p,
   check_demo_main_proj p,
   check_flow_run_signature p.flowFiles,
   check_readme p,
   check_all_python_files_length 1000 p.allPyFiles]

/-- Sequencing of `main()`: because `fail` calls `sys.exit(1)`, the first
failing check terminates the run and no later check executes. -/
def runChecks : List (Except String Unit) → Except String Unit
  | [] => Except.ok ()
  | c :: rest =>
    match c with
    | Except.error e => Except.error e
    | Except.ok () => runChecks rest

/-- `main()` of `precheck.py`. -/
def precheck_main (p : Project) : Except String Unit :=
  runChecks (checkResults p)

def successBanner : String := "🎉 Все проверки успешно пройдены!"

/-- The process exit code of a run: 0 on success, 1 via `sys.exit(1)` in
`fail`. -/
def precheckExitCode (p : Project) : Nat :=
  match precheck_main p with
  | Except.ok () => 0
  | Except.error _ => 1

/-- The run's decisive output: the final success banner, or the single
failure line `❌ <message>` printed by `fail` (the per-check `✔` progress
lines are not modelled). -/
def precheckFinalOutput (p : Project) : List String :=
  match precheck_main p with
  | Except.ok () => [successBanner]
  | Except.error e => ["❌ " ++ e]

/-- Modelled from the claim's words, for comparison against the source's
`qualifiesMainCall`: an entry-point invocation that is a bare call to `main`,
or a call to attribute `run` on the name `asyncio` whose SOLE positional
argument is a call to `main`. -/
def soleMainInvocation : Stmt → Bool
  | Stmt.exprStmt (PExpr.callE (PExpr.nameE i) _) => i == "main"
  | Stmt.exprStmt (PExpr.callE (PExpr.attrE (PExpr.nameE b) a)
      [PExpr.callE (PExpr.nameE i2) _]) =>
    a == "run" && b == "asyncio" && i2 == "main"
  | _ => false

/-- A concrete project on which every check passes: the required layout is
present, `app/` holds only allowed entries, the only `app/` import is the
allow-listed `eksmo_src.eksmo_types`, the flows directory holds one valid
flow file, `demonstration/main.py` defines and invokes an argumentless
asynchronous `main`, the readme has a header, a description and the install
and run keywords, and all files are short. -/
def goodProject : Project :=
  { dirs := ["app", "app/outsource", "app/outsource/flows", "demonstration", "eksmo_src"],
    files := ["app/consts.py", "demonstration/main.py", ".pre-commit-config.yaml",
      "pyproject.toml", "README.md"],
    rootListing := [DirEntry.dirE "app", DirEntry.dirE "demonstration",
      DirEntry.dirE "eksmo_src", DirEntry.fileE "pyproject.toml"],
    appDirListing := [DirEntry.fileE "consts.py", DirEntry.dirE "outsource"],
    appPyFiles := [("app/consts.py", [Stmt.importFrom (some "eksmo_src.eksmo_types") 0])],
    flowsDirFiles := ["__init__.py", "demo_flow.py"],
    flowFiles := [("demo_flow.py",
      [Stmt.classDef "DemoFlow"
        [Stmt.funcDef "run" true [PExpr.nameE "classmethod"]
          ⟨[], [Arg.mk "cls"], none, [Arg.mk "total_usage"], none⟩ []]])],
    demoMainTree := [Stmt.funcDef "main" true [] ⟨[], [], none, [], none⟩ [],
      Stmt.exprStmt (PExpr.callE (PExpr.attrE (PExpr.nameE "asyncio") "run")
        [PExpr.callE (PExpr.nameE "main") []])],
    readmeText := "# Demo project\nA small demonstration project for flows.\n\n## install\npip install .\n\n## run\npython demonstration/main.py\n",
    allPyFiles := [(["app", "consts.py"], 12), (["demonstration", "main.py"], 20)] }

/-! ## Helper characterizations -/

/-- A decorator passes `isClassmethodDeco` exactly when it is the bare name
`classmethod` or an attribute access whose final attribute is `classmethod`. -/
theorem isClassmethodDeco_iff (d : PExpr) :
    isClassmethodDeco d = true ↔
      d = PExpr.nameE "classmethod" ∨ ∃ v, d = PExpr.attrE v "classmethod" := by
  cases d <;> simp [isClassmethodDeco]

/-- The decorator-list test of `check_run_method`, as an existential. -/
theorem hasClassmethod_iff (dl : List PExpr) :
    dl.any isClassmethodDeco = true ↔
      ∃ d ∈ dl, d = PExpr.nameE "classmethod" ∨ ∃ v, d = PExpr.attrE v "classmethod" := by
  simp only [List.any_eq_true, isClassmethodDeco_iff]

/-- The keyword-only test of `check_run_method`, as an existential. -/
theorem kwHasTotalUsage_iff (l : List Arg) :
    (l.any fun a => a.arg == "total_usage") = true ↔ ∃ a ∈ l, a.arg = "total_usage" := by
  simp [List.any_eq_true]

/-- A statement yields a candidate `run` method exactly when it is a function
or method declaration named `run`. -/
theorem asRunMethod_isSome_iff (s : Stmt) :
    (asRunMethod s).isSome = true ↔ ∃ ia dl ar b, s = Stmt.funcDef "run" ia dl ar b := by
  cases s <;> simp [asRunMethod]

/-- Membership in `topLevelClasses`: exactly the class declarations that occur
directly in the module body (nested classes are not reached). -/
theorem mem_topLevelClasses (body : List Stmt) (nm : String) (cb : List Stmt) :
    (nm, cb) ∈ topLevelClasses body ↔ Stmt.classDef nm cb ∈ body := by
  unfold topLevelClasses
  rw [List.mem_filterMap]
  constructor
  · rintro ⟨a, ha, hfa⟩
    cases a <;> simp_all
  · intro h
    exact ⟨Stmt.classDef nm cb, h, rfl⟩

/-! ## The claims -/

/-- C1: for every `run` method located in a Flow class, shape validation
succeeds iff `run` is asynchronous, carries a decoration that is the bare
name `classmethod` or an attribute access ending in `classmethod`, and has a
keyword-only parameter named `total_usage` (a positional-or-keyword
`total_usage` does not count); the three checks run in this order, stopping
at the first failure. -/
theorem claim_C1_run_shape (file clsName : String) (body : List Stmt) (m : FuncInfo)
    (hfind : findRunMethod body = some m) :
    ((check_run_method clsName body file = Except.ok ()) ↔
      (m.isAsync = true ∧
       (∃ d ∈ m.decoratorList,
          d = PExpr.nameE "classmethod" ∨ ∃ v, d = PExpr.attrE v "classmethod") ∧
       (∃ a ∈ m.args.kwonlyargs, a.arg = "total_usage")))
    ∧ (m.isAsync = false →
        check_run_method clsName body file = Except.error (runAsyncMsg file clsName))
    ∧ (m.isAsync = true → m.decoratorList.any isClassmethodDeco = false →
        check_run_method clsName body file = Except.error (runClassmethodMsg file clsName))
    ∧ (m.isAsync = true → m.decoratorList.any isClassmethodDeco = true →
        (m.args.kwonlyargs.any fun a => a.arg == "total_usage") = false →
        check_run_method clsName body file = Except.error (runKwonlyMsg file clsName)) := by
  obtain ⟨ia, dl, ar⟩ := m
  unfold check_run_method
  rw [hfind]
  cases ia <;> cases hC : dl.any isClassmethodDeco <;>
    cases hK : (ar.kwonlyargs.any fun a => a.arg == "total_usage") <;>
      simp [hC, hK, ← hasClassmethod_iff, ← kwHasTotalUsage_iff]

/-- Witness for C1: a concrete asynchronous, classmethod-decorated `run` with
keyword-only `total_usage` passes validation. -/
theorem claim_C1_run_shape_witness :
    check_run_method "DemoFlow"
      [Stmt.funcDef "run" true [PExpr.nameE "classmethod"]
        ⟨[], [Arg.mk "cls"], none, [Arg.mk "total_usage"], none⟩ []]
      "app/outsource/flows/demo_flow.py" = Except.ok () :=
  (claim_C1_run_shape "app/outsource/flows/demo_flow.py" "DemoFlow"
      [Stmt.funcDef "run" true [PExpr.nameE "classmethod"]
        ⟨[], [Arg.mk "cls"], none, [Arg.mk "total_usage"], none⟩ []]
      ⟨true, [PExpr.nameE "classmethod"],
        ⟨[], [Arg.mk "cls"], none, [Arg.mk "total_usage"], none⟩⟩ rfl).1.mpr
    ⟨rfl, ⟨PExpr.nameE "classmethod", by simp, Or.inl rfl⟩,
      ⟨Arg.mk "total_usage", by simp, rfl⟩⟩

/-- C6: the Flow-class search inspects only top-level class declarations, a
class matches exactly when its name ends in `Flow`, zero matches yields the
missing-class violation, two or more yields the ambiguity violation with the
exact count, and a unique match is handed to `check_run_method`. -/
theorem claim_C6_flow_class_search (file : String) (body : List Stmt) :
    ((flowClassesOf body).length = 0 →
      check_flow_file file body = Except.error (flowMissingMsg file))
    ∧ (∀ nm cb, flowClassesOf body = [(nm, cb)] →
        check_flow_file file body = check_run_method nm cb file)
    ∧ (2 ≤ (flowClassesOf body).length →
        check_flow_file file body =
          Except.error (flowMultipleMsg file (flowClassesOf body).length))
    ∧ (∀ nm cb, ((nm, cb) ∈ flowClassesOf body ↔
        (Stmt.classDef nm cb ∈ body ∧ pyEndsWith nm "Flow" = true))) := by
  refine ⟨?_, ?_, ?_, ?_⟩
  · intro h
    unfold check_flow_file
    rw [List.length_eq_zero.mp h]
  · intro nm cb h
    unfold check_flow_file
    rw [h]
  · intro h
    unfold check_flow_file
    rcases hfc : flowClassesOf body with _ | ⟨c, _ | ⟨c2, cs⟩⟩
    · rw [hfc] at h; simp at h
    · rw [hfc] at h; simp at h
    · rfl
  · intro nm cb
    unfold flowClassesOf
    rw [List.mem_filter, mem_topLevelClasses]

/-- C7: the `run` search scans the class's direct members in declaration
order, the first function or method named `run` wins and later same-named
members are ignored, and a class with no member named `run` gets the
absent-method violation. -/
theorem claim_C7_first_run_wins (clsName file : String) (pre post body : List Stmt)
    (m : FuncInfo) (s : Stmt) :
    ((∀ x ∈ pre, asRunMethod x = none) → asRunMethod s = some m →
      findRunMethod (pre ++ s :: post) = some m)
    ∧ ((∀ x ∈ body, asRunMethod x = none) →
        check_run_method clsName body file = Except.error (runAbsentMsg file clsName))
    ∧ ((asRunMethod s).isSome = true ↔ ∃ ia dl ar b, s = Stmt.funcDef "run" ia dl ar b) := by
  refine ⟨?_, ?_, asRunMethod_isSome_iff s⟩
  · intro hpre hs
    unfold findRunMethod
    induction pre with
    | nil => simp [List.findSome?_cons, hs]
    | cons x xs ih =>
      have hx : asRunMethod x = none := hpre x (by simp)
      simp only [List.cons_append, List.findSome?_cons, hx]
      exact ih (fun y hy => hpre y (by simp [hy]))
  · intro hbody
    have hnone : findRunMethod body = none := by
      unfold findRunMethod
      exact List.findSome?_eq_none_iff.mpr hbody
    unfold check_run_method
    rw [hnone]

/-- A statement passes the invocation loop exactly when it is an expression
statement whose value passes `qualifiesMainCall`. -/
theorem stmtCallsMain_iff (s : Stmt) :
    stmtCallsMain s = true ↔ ∃ c, s = Stmt.exprStmt c ∧ qualifiesMainCall c = true := by
  cases s <;> simp [stmtCallsMain]

/-- The accepted call shapes of the invocation loop: a bare call to `main`,
or `asyncio.run(...)` whose FIRST positional argument is a call to `main`
(further arguments do not disqualify). -/
theorem qualifiesMainCall_iff (c : PExpr) :
    qualifiesMainCall c = true ↔
      (∃ args, c = PExpr.callE (PExpr.nameE "main") args) ∨
      (∃ iargs rest,
        c = PExpr.callE (PExpr.attrE (PExpr.nameE "asyncio") "run")
              (PExpr.callE (PExpr.nameE "main") iargs :: rest)) := by
  cases c with
  | nameE i => simp [qualifiesMainCall]
  | attrE v a => simp [qualifiesMainCall]
  | otherE => simp [qualifiesMainCall]
  | callE f args =>
    cases f with
    | nameE i => simp [qualifiesMainCall]
    | otherE => simp [qualifiesMainCall]
    | callE f2 a2 => simp [qualifiesMainCall]
    | attrE v a =>
      cases v with
      | attrE v2 a2 => simp [qualifiesMainCall]
      | callE f2 a2 => simp [qualifiesMainCall]
      | otherE => simp [qualifiesMainCall]
      | nameE b =>
        cases args with
        | nil => simp [qualifiesMainCall]
        | cons hd tl =>
          cases hd with
          | callE f3 a3 =>
            cases f3 with
            | nameE i2 =>
              simp only [qualifiesMainCall, Bool.and_eq_true, beq_iff_eq]
              constructor
              · rintro ⟨⟨ha, hb⟩, hi⟩
                subst ha; subst hb; subst hi
                exact Or.inr ⟨a3, tl, rfl⟩
              · rintro (⟨args2, h⟩ | ⟨iargs, rest, h⟩) <;> simp_all
            | attrE v3 a4 => simp [qualifiesMainCall]
            | callE f4 a4 => simp [qualifiesMainCall]
            | otherE => simp [qualifiesMainCall]
          | nameE i2 => simp [qualifiesMainCall]
          | attrE v3 a3 => simp [qualifiesMainCall]
          | otherE => simp [qualifiesMainCall]

/-- C3 counterexample: the module whose only trailing call is
`asyncio.run(main(), extra)` — two positional arguments, so no call qualifies
under the claim's sole-positional-argument reading — nevertheless passes the
invocation check, because the source only inspects `call.args[0]`. -/
theorem claim_C3_counterexample :
    checksMainInvoked
      [Stmt.exprStmt (PExpr.callE (PExpr.attrE (PExpr.nameE "asyncio") "run")
        [PExpr.callE (PExpr.nameE "main") [], PExpr.nameE "extra"])] = true
    ∧ ([Stmt.exprStmt (PExpr.callE (PExpr.attrE (PExpr.nameE "asyncio") "run")
        [PExpr.callE (PExpr.nameE "main") [], PExpr.nameE "extra"])].all
        fun s => !soleMainInvocation s) = true :=
  ⟨rfl, rfl⟩

/-- C3 (amended): the invocation check accepts a bare call to `main` and a
call to attribute `run` on the name `asyncio` whose FIRST positional argument
is a call to `main` (additional arguments are ignored); when no statement of
the module is an expression statement carrying such a call, the
never-invoked violation is reported. -/
theorem claim_C3_entry_invocation (body : List Stmt) (mp : String) :
    (checksMainInvoked body = true ↔
      ∃ s ∈ body, ∃ c, s = Stmt.exprStmt c ∧
        ((∃ args, c = PExpr.callE (PExpr.nameE "main") args) ∨
         (∃ iargs rest,
           c = PExpr.callE (PExpr.attrE (PExpr.nameE "asyncio") "run")
                 (PExpr.callE (PExpr.nameE "main") iargs :: rest))))
    ∧ (∀ a, body.findSome? asAsyncMain = some a → mainArgsViolation a = false →
        checksMainInvoked body = false →
        check_demo_main true mp body = Except.error (mainNotCalledMsg mp)) := by
  constructor
  · unfold checksMainInvoked
    rw [List.any_eq_true]
    constructor
    · rintro ⟨s, hs, hp⟩
      obtain ⟨c, hc, hq⟩ := (stmtCallsMain_iff s).mp hp
      exact ⟨s, List.mem_reverse.mp hs, c, hc, (qualifiesMainCall_iff c).mp hq⟩
    · rintro ⟨s, hs, c, hc, hshape⟩
      exact ⟨s, List.mem_reverse.mpr hs,
        (stmtCallsMain_iff s).mpr ⟨c, hc, (qualifiesMainCall_iff c).mpr hshape⟩⟩
  · intro a hf hv hc
    simp [check_demo_main, hf, hv, hc]

/-- C4: the code passes the `main` signature check for
`async def main(x, /): ...` invoked by `asyncio.run(main())`, although the
parameter set is not empty — the source never inspects `posonlyargs`, so a
positional-only parameter escapes the "main must take no arguments" rule. -/
theorem claim_C4_posonly_gap :
    mainArgsViolation ⟨[Arg.mk "x"], [], none, [], none⟩ = false
    ∧ (⟨[Arg.mk "x"], [], none, [], none⟩ : Arguments).posonlyargs ≠ []
    ∧ check_demo_main true "demonstration/main.py"
        [Stmt.funcDef "main" true [] ⟨[Arg.mk "x"], [], none, [], none⟩ [],
         Stmt.exprStmt (PExpr.callE (PExpr.attrE (PExpr.nameE "asyncio") "run")
           [PExpr.callE (PExpr.nameE "main") []])] = Except.ok () :=
  ⟨rfl, by simp, rfl⟩

/-- A direct-import alias is flagged exactly when it is not the allow-listed
path and its root segment is a local module other than `app`. -/
theorem directAliasViolation_isSome_iff (locals : List String) (pyFile full : String) :
    (directAliasViolation locals pyFile full).isSome = true ↔
      (full ≠ allowed_full_import ∧ topModule full ∈ locals ∧ topModule full ≠ "app") := by
  unfold directAliasViolation
  split_ifs with h1 h2 <;>
    simp_all [List.elem_iff, Bool.and_eq_true, bne_iff_ne] <;> tauto

/-- A from-import is flagged exactly when it is absolute (level 0), has a
module path, and that path is not allow-listed while its root is a local
module other than `app`. -/
theorem fromImportViolation_isSome_iff (locals : List String) (pyFile : String)
    (m : Option String) (lvl : Nat) :
    (fromImportViolation locals pyFile m lvl).isSome = true ↔
      (lvl = 0 ∧ ∃ f, m = some f ∧ f ≠ allowed_full_import ∧
        topModule f ∈ locals ∧ topModule f ≠ "app") := by
  unfold fromImportViolation
  split_ifs with h0
  · simp_all
  · cases m with
    | none => simp_all
    | some f =>
      have h0' : lvl = 0 := by simpa using h0
      dsimp only
      split_ifs with h1 h2 <;>
        simp_all [List.elem_iff, Bool.and_eq_true, bne_iff_ne] <;> tauto

/-- The per-file import scan is clean exactly when every walked import node
is clean. -/
theorem firstImportViolation_eq_none_iff (locals : List String) (pyFile : String)
    (ns : List ImpNode) :
    firstImportViolation locals pyFile ns = none ↔
      ∀ n ∈ ns, impNodeViolation locals pyFile n = none := by
  induction ns with
  | nil => simp [firstImportViolation]
  | cons n rest ih =>
    unfold firstImportViolation
    cases h : impNodeViolation locals pyFile n <;> simp [h, ih]

/-- C2: an import statement anywhere in a file under `app/` is handled as
follows — a from-import with nonzero relative level is never flagged;
otherwise the exact path `eksmo_src.eksmo_types` is accepted; otherwise it
is a violation exactly when the first dotted segment is a local module and
is not `app`, so imports rooted outside the local-module set are always
accepted. -/
theorem claim_C2_import_boundary (locals : List String) (pyFile full : String)
    (lvl : Nat) (m : Option String) :
    ((fromImportViolation locals pyFile m lvl).isSome = true ↔
      (lvl = 0 ∧ ∃ f, m = some f ∧ f ≠ allowed_full_import ∧
        topModule f ∈ locals ∧ topModule f ≠ "app"))
    ∧ ((directAliasViolation locals pyFile full).isSome = true ↔
      (full ≠ allowed_full_import ∧ topModule full ∈ locals ∧ topModule full ≠ "app"))
    ∧ (∀ tr : List Stmt,
        (check_app_imports locals [(pyFile, tr)] = Except.ok () ↔
          ∀ node ∈ bodyWalkImports tr, impNodeViolation locals pyFile node = none)) := by
  refine ⟨fromImportViolation_isSome_iff locals pyFile m lvl,
    directAliasViolation_isSome_iff locals pyFile full, ?_⟩
  intro tr
  have hrw : check_app_imports locals [(pyFile, tr)] =
      (match firstImportViolation locals pyFile (bodyWalkImports tr) with
       | some v => Except.error v
       | none => Except.ok ()) := by
    unfold check_app_imports
    cases firstImportViolation locals pyFile (bodyWalkImports tr) <;> rfl
  rw [hrw, ← firstImportViolation_eq_none_iff]
  cases h : firstImportViolation locals pyFile (bodyWalkImports tr) <;> simp [h]

/-- C5 counterexample: with two files each holding a violating import, the
scan's result is the single violation of the first file and coincides with
the result of scanning the first file alone — no ordered sequence of
violations across the subtree is produced, because `fail` terminates the
process at the first hit. -/
theorem claim_C5_counterexample :
    check_app_imports ["demonstration", "eksmo_src"]
      [("app/a.py", [Stmt.importS ["demonstration.x"]]),
       ("app/b.py", [Stmt.importS ["eksmo_src.other"]])] =
      Except.error (importDirectMsg "app/a.py" "demonstration.x")
    ∧ check_app_imports ["demonstration", "eksmo_src"]
      [("app/a.py", [Stmt.importS ["demonstration.x"]]),
       ("app/b.py", [Stmt.importS ["eksmo_src.other"]])] =
      check_app_imports ["demonstration", "eksmo_src"]
        [("app/a.py", [Stmt.importS ["demonstration.x"]])] :=
  ⟨rfl, rfl⟩

/-- C5 (amended): the import-boundary scan fails fast — when a file yields a
violation, the run reports exactly that violation and the files after it are
never scanned (the result does not depend on them). -/
theorem claim_C5_fail_fast (locals : List String) (f : String × List Stmt)
    (rest rest' : List (String × List Stmt)) (e : String)
    (h : firstImportViolation locals f.1 (bodyWalkImports f.2) = some e) :
    check_app_imports locals (f :: rest) = Except.error e
    ∧ check_app_imports locals (f :: rest) = check_app_imports locals (f :: rest') := by
  obtain ⟨fn, tr⟩ := f
  unfold check_app_imports
  rw [h]
  exact ⟨rfl, rfl⟩

/-- Witness for C5: a concrete violating first file makes the scan report its
violation regardless of a second file. -/
theorem claim_C5_fail_fast_witness :
    check_app_imports ["demonstration"]
      [("app/a.py", [Stmt.importS ["demonstration.x"]]), ("app/b.py", [])] =
      Except.error (importDirectMsg "app/a.py" "demonstration.x") :=
  (claim_C5_fail_fast ["demonstration"]
    ("app/a.py", [Stmt.importS ["demonstration.x"]])
    [("app/b.py", [])] [] (importDirectMsg "app/a.py" "demonstration.x") (by decide)).1

/-- Membership in the computed local-module set: a name is collected from
every listing entry not literally named `app` — directory names as they are,
`.py` file names by their stem. -/
theorem mem_localModulesOf (listing : List DirEntry) (nm : String) :
    nm ∈ localModulesOf listing ↔
      ∃ e ∈ listing, entryName e ≠ "app" ∧
        (e = DirEntry.dirE nm ∨
         ∃ f, e = DirEntry.fileE f ∧ pySuffix f = ".py" ∧ pyStem f = nm) := by
  induction listing with
  | nil => simp [localModulesOf]
  | cons x xs ih =>
    cases x with
    | dirE n =>
      by_cases hx : n = "app" <;>
        simp [localModulesOf, entryName, hx, ih, eq_comm]
    | fileE n =>
      by_cases hx : n = "app"
      · simp [localModulesOf, entryName, hx, ih, eq_comm]
      · by_cases hs : pySuffix n = ".py"
        · simp [localModulesOf, entryName, hx, hs, ih, eq_comm]
        · simp [localModulesOf, entryName, hx, hs, Ne.symm hs, ih, eq_comm]

/-- C8 counterexample: a root listing holding a file `app.py` puts the name
`app` INTO the local-module set — the exclusion applies to the listing entry
literally named `app`, not to the collected name. -/
theorem claim_C8_counterexample :
    localModulesOf [DirEntry.fileE "app.py"] = ["app"] := by rfl

/-- C8 (amended): the local-module set holds the names of top-level
directories and the stems of top-level `.py` files over the listing entries
not literally named `app` (so a top-level file `app.py` contributes the stem
`app`); imports whose root segment is `app` are nevertheless never flagged,
because the violation test itself excludes the root `app`. -/
theorem claim_C8_local_modules (listing : List DirEntry) (nm : String)
    (locals : List String) (pyFile full : String) (lvl : Nat) :
    (nm ∈ localModulesOf listing ↔
      ∃ e ∈ listing, entryName e ≠ "app" ∧
        (e = DirEntry.dirE nm ∨
         ∃ f, e = DirEntry.fileE f ∧ pySuffix f = ".py" ∧ pyStem f = nm))
    ∧ (topModule full = "app" → directAliasViolation locals pyFile full = none)
    ∧ (topModule full = "app" → fromImportViolation locals pyFile (some full) lvl = none) := by
  refine ⟨mem_localModulesOf listing nm, ?_, ?_⟩
  · intro htop
    unfold directAliasViolation
    split_ifs with h1 h2
    · rfl
    · rw [Bool.and_eq_true] at h2
      rw [htop] at h2
      simp at h2
    · rfl
  · intro htop
    unfold fromImportViolation
    split_ifs with h0
    · rfl
    · dsimp only
      split_ifs with h1 h2
      · rfl
      · rw [Bool.and_eq_true] at h2
        rw [htop] at h2
        simp at h2
      · rfl

/-- Witness for C8's amended statement: in a listing with directories `app`,
`demonstration` and file `precheck.py`, the name `demonstration` is collected
(the directory is not named `app`), and a direct import rooted at `app` is
not flagged. -/
theorem claim_C8_local_modules_witness :
    "demonstration" ∈ localModulesOf
      [DirEntry.dirE "app", DirEntry.dirE "demonstration", DirEntry.fileE "precheck.py"]
    ∧ directAliasViolation ["demonstration", "precheck"] "app/x.py" "app.consts" = none :=
  ⟨(claim_C8_local_modules
      [DirEntry.dirE "app", DirEntry.dirE "demonstration", DirEntry.fileE "precheck.py"]
      "demonstration" ["demonstration", "precheck"] "app/x.py" "app.consts" 0).1.mpr
      ⟨DirEntry.dirE "demonstration", by simp, by simp [entryName], Or.inl rfl⟩,
   (claim_C8_local_modules
      [DirEntry.dirE "app", DirEntry.dirE "demonstration", DirEntry.fileE "precheck.py"]
      "demonstration" ["demonstration", "precheck"] "app/x.py" "app.consts" 0).2.1 (by decide)⟩

/-- The length scan is clean exactly when every non-exempt file is within the
ceiling. -/
theorem checkAllLength_ok_iff (ml : Nat) (files : List (List String × Nat)) :
    check_all_python_files_length ml files = Except.ok () ↔
      ∀ g ∈ files, isEnvExempt g.1 = false → g.2 ≤ ml := by
  induction files with
  | nil => simp [check_all_python_files_length]
  | cons g gs ih =>
    obtain ⟨gp, gn⟩ := g
    by_cases hex : isEnvExempt gp
    · simp [check_all_python_files_length, hex, ih]
    · by_cases hn : gn > ml
      · have hcf : check_file_length gp gn ml =
            Except.error (fileLengthMsg (String.intercalate "/" gp) gn ml) := by
          rw [check_file_length, if_pos hn]
        simp [check_all_python_files_length, hex, hcf]
        intro h
        omega
      · have hcf : check_file_length gp gn ml = Except.ok () := by
          rw [check_file_length, if_neg hn]
        simp [check_all_python_files_length, hex, hcf, ih]
        intro _
        omega

/-- C10: the 1000-line ceiling applies to every `.py` file of the recursive
scan except those with `venv` or `env` among their path components — the
scan is clean exactly when every non-exempt file is within the limit, an
exempt file of any length can be removed without changing the outcome, and
exemption means exactly a `venv` or `env` path component. -/
theorem claim_C10_length_ceiling (files pre post : List (List String × Nat))
    (f : List String × Nat) (parts : List String) :
    (check_all_python_files_length 1000 files = Except.ok () ↔
      ∀ g ∈ files, isEnvExempt g.1 = false → g.2 ≤ 1000)
    ∧ (isEnvExempt f.1 = true →
        check_all_python_files_length 1000 (pre ++ f :: post) =
          check_all_python_files_length 1000 (pre ++ post))
    ∧ (isEnvExempt parts = true ↔ "venv" ∈ parts ∨ "env" ∈ parts) := by
  refine ⟨checkAllLength_ok_iff 1000 files, ?_, ?_⟩
  · intro hex
    induction pre with
    | nil =>
      obtain ⟨fp, fn⟩ := f
      simp only at hex
      simp [check_all_python_files_length, hex]
    | cons q qs ih =>
      obtain ⟨qp, qn⟩ := q
      by_cases hq : isEnvExempt qp
      · simp only [List.cons_append, check_all_python_files_length, hq, if_pos]
        exact ih
      · simp only [List.cons_append, check_all_python_files_length]
        rw [if_neg (by simp [hq]), if_neg (by simp [hq])]
        cases check_file_length qp qn 1000 with
        | error e => rfl
        | ok u => cases u; exact ih
  · simp [isEnvExempt, List.elem_iff]

/-- Sequencing is clean exactly when every check in the list is clean. -/
theorem runChecks_ok_iff (l : List (Except String Unit)) :
    runChecks l = Except.ok () ↔ ∀ c ∈ l, c = Except.ok () := by
  induction l with
  | nil => simp [runChecks]
  | cons c rest ih =>
    cases c with
    | error e => simp [runChecks]
    | ok u => cases u; simp [runChecks, ih]

/-- Whatever follows a failing check never influences the run's result. -/
theorem runChecks_skip_after_error (pre rest rest' : List (Except String Unit))
    (e : String) :
    runChecks (pre ++ Except.error e :: rest) =
      runChecks (pre ++ Except.error e :: rest') := by
  induction pre with
  | nil => rfl
  | cons c cs ih =>
    cases c with
    | error e2 => rfl
    | ok u => cases u; simpa [runChecks] using ih

/-- The first failing check's message is the run's result. -/
theorem runChecks_first_error (pre rest : List (Except String Unit)) (e : String)
    (hpre : ∀ c ∈ pre, c = Except.ok ()) :
    runChecks (pre ++ Except.error e :: rest) = Except.error e := by
  induction pre with
  | nil => rfl
  | cons c cs ih =>
    have hc : c = Except.ok () := hpre c (by simp)
    subst hc
    simpa [runChecks] using ih (fun x hx => hpre x (by simp [hx]))

/-- C9: the run exits with code 0 and the success banner exactly when all
eight checks pass; on a failure the output is the single `❌ <message>` line
of the first failing check and the exit code is 1; checks after the first
failure never influence the result; and the checks run in the fixed order
project structure, app directory contents, app imports, flows directory
structure, demo main, flow run signatures, readme, file lengths. -/
theorem claim_C9_orchestration (p : Project)
    (pre rest rest' : List (Except String Unit)) (e : String) :
    (precheckExitCode p = 0 ↔ ∀ c ∈ checkResults p, c = Except.ok ())
    ∧ (precheckExitCode p = 0 → precheckFinalOutput p = [successBanner])
    ∧ (∀ e2, precheck_main p = Except.error e2 →
        precheckExitCode p = 1 ∧ precheckFinalOutput p = ["❌ " ++ e2])
    ∧ (runChecks (pre ++ Except.error e :: rest) =
        runChecks (pre ++ Except.error e :: rest'))
    ∧ ((∀ c ∈ pre, c = Except.ok ()) →
        runChecks (pre ++ Except.error e :: rest) = Except.error e)
    ∧ checkResults p = [check_project_structure p, check_app_directory_contents p,
        check_app_imports_proj p, check_structure p, check_demo_main_proj p,
        check_flow_run_signature p.flowFiles, check_readme p,
        check_all_python_files_length 1000 p.allPyFiles] := by
  refine ⟨?_, ?_, ?_, runChecks_skip_after_error pre rest rest' e,
    runChecks_first_error pre rest e, rfl⟩
  · rw [← runChecks_ok_iff]
    unfold precheckExitCode precheck_main
    cases h : runChecks (checkResults p) with
    | error e2 => simp [h]
    | ok u => cases u; simp
  · intro h0
    unfold precheckExitCode at h0
    unfold precheckFinalOutput
    cases h : precheck_main p with
    | error e2 => rw [h] at h0; simp at h0
    | ok u => cases u; rfl
  · intro e2 h
    unfold precheckExitCode precheckFinalOutput
    rw [h]
    exact ⟨rfl, rfl⟩

/-- Witness for C9: on the concrete fully-valid project every check passes,
the exit code is 0 and the output ends in the success banner. -/
theorem claim_C9_orchestration_witness :
    precheckExitCode goodProject = 0
    ∧ precheckFinalOutput goodProject = [successBanner] :=
  ⟨rfl, (claim_C9_orchestration goodProject [] [] [] "").2.1 rfl⟩
